import Mathlib

/-!
Verification development for the dynamic-table generation engine of the
`Python-Fastapi` repository (`src/app/services/dynamictable.py`).

The Python module is shallowly embedded: Python values that can appear in the
JSON data payload are modelled by `PyVal`; Python dicts are association lists
(insertion-ordered, duplicate-free by construction of `pyDictSet`); Python
floats are modelled by `Dec`, an exact integer-pair rational (the source does
only additions, comparisons with integers, and 2-decimal rounding on values
parsed from the payload, so exact rational arithmetic is the faithful
idealisation of those float operations; binary-float rounding error is not
modelled).  docx-level styling attributes that the source sets on each table
cell (text, background shading fill, bold, font size, horizontal and vertical
alignment) are recorded in `Cell`; attributes the claims never mention and
that the source applies uniformly (font name "Calibri", fixed column widths
from `enforce_column_widths`, table-level alignment/layout/style) are not
tracked.
-/

namespace PyDocx

/-- `MAX_DYNAMIC_COLS = 16` (dynamictable.py line 10). -/
def MAX_DYNAMIC_COLS : ℕ := 16

/-- `STAFF_FONT_SIZE = Pt(12)`, stored in half-points as docx does. -/
def STAFF_FONT_SIZE : ℕ := 24

/-- `DEFAULT_FONT_SIZE = Pt(10)`, stored in half-points. -/
def DEFAULT_FONT_SIZE : ℕ := 20

/-- `HEADER_FONT_SIZE = Pt(9.5)`, stored in half-points. -/
def HEADER_FONT_SIZE : ℕ := 19

/-- An exact rational `n / d` as an explicit integer pair.  Every `Dec`
constructed by the embedding has `0 < d`.  Operations do not normalise, so
the kernel can evaluate them (Lean's `Rat` normalises through `Nat.gcd`,
which the kernel cannot reduce). -/
structure Dec where
  n : ℤ
  d : ℤ
deriving DecidableEq, Repr

namespace Dec

def zero : Dec := ⟨0, 1⟩

def ofInt (z : ℤ) : Dec := ⟨z, 1⟩

def add (a b : Dec) : Dec := ⟨a.n * b.d + b.n * a.d, a.d * b.d⟩

def neg (a : Dec) : Dec := ⟨-a.n, a.d⟩

/-- The rational value of a `Dec`. -/
def val (a : Dec) : ℚ := (a.n : ℚ) / (a.d : ℚ)

/-- Python `t == int(t)`: the value is an integer (for `0 < d`). -/
def isInt (a : Dec) : Bool := a.n % a.d = 0

/-- Python `int(t)` for a `Dec` that `isInt` (exact, so the rounding
direction of `int` is irrelevant). -/
def toInt (a : Dec) : ℤ := a.n / a.d

end Dec

/-- A Python value as it can occur in the JSON data payload.
Restricted to ASCII strings (the source's `str.isdigit` tests are modelled
by `Char.isDigit`, which is the ASCII reading). -/
inductive PyVal where
  | none
  | int (z : ℤ)
  | float (x : Dec)
  | str (s : String)
  | list (items : List PyVal)
  | dict (entries : List (String × PyVal))

/-- A Python dict, as an insertion-ordered association list. -/
abbrev PyDict := List (String × PyVal)

/-- A data row of the payload (`rows[i]`). -/
abbrev Row := PyDict

/-- Python `d.get(k, default)`. -/
def pyGet (d : PyDict) (k : String) (default : PyVal) : PyVal :=
  (List.lookup k d).getD default

/-- Python dict assignment `d[k] = v`: update in place if the key exists
(keeping its position), otherwise append. -/
def pyDictSet (d : PyDict) (k : String) (v : PyVal) : PyDict :=
  match d with
  | [] => [(k, v)]
  | (k', v') :: rest => if k' = k then (k, v) :: rest else (k', v') :: pyDictSet rest k v

/-- View a `PyVal` as a dict.  The source calls `.get`/`.items()` on such
values directly and would raise `AttributeError` on a non-dict; those inputs
are outside the data model (§3 of the spec), and this view returns the empty
dict for them. -/
def asDict (v : PyVal) : PyDict :=
  match v with
  | .dict es => es
  | _ => []

/-- View a `PyVal` as a list (same caveat as `asDict`). -/
def asList (v : PyVal) : List PyVal :=
  match v with
  | .list xs => xs
  | _ => []

/-- Python truthiness of a payload value. -/
def pyTruthy (v : PyVal) : Bool :=
  match v with
  | .none => false
  | .int z => z ≠ 0
  | .float x => x.n ≠ 0
  | .str s => s ≠ ""
  | .list xs => !xs.isEmpty
  | .dict es => !es.isEmpty

/-- Decimal digits of the fractional part `r/d` (long division, `fuel`
bounding the number of digits; every float in the payload data model has a
terminating decimal expansion, for which the expansion is exact). -/
def fracDigits (fuel : ℕ) (r d : ℕ) : List Char :=
  match fuel with
  | 0 => []
  | fuel + 1 =>
    if r = 0 then []
    else Nat.digitChar (r * 10 / d) :: fracDigits fuel (r * 10 % d) d

/-- Python `str()` of a float value (modelled for terminating decimal
expansions; Python prints the shortest round-tripping decimal of the binary
double, which agrees on the payload data model). -/
def floatRepr (a : Dec) : String :=
  let sign := if a.n < 0 then "-" else ""
  let m := a.n.natAbs
  let den := a.d.natAbs
  let ip := m / den
  let frac := fracDigits 32 (m % den) den
  sign ++ toString ip ++ "." ++ (if frac.isEmpty then "0" else frac.asString)

/-- Python `str()` of a payload value, to bounded nesting depth (structural
recursion on the fuel keeps the function kernel-computable).  For containers
the source would produce Python `repr` punctuation (quotes around inner
strings); no claim concerns stringified containers, and this model prints
them with brackets and commas but without inner quoting, with a placeholder
below depth 0. -/
def pyStrCore : ℕ → PyVal → String
  | _, .none => "None"
  | _, .int z => toString z
  | _, .float x => floatRepr x
  | _, .str s => s
  | 0, .list _ => "[...]"
  | fuel + 1, .list xs => "[" ++ String.intercalate ", " (xs.map (pyStrCore fuel)) ++ "]"
  | 0, .dict _ => "\x7b...\x7d"
  | fuel + 1, .dict es =>
    "\x7b" ++ String.intercalate ", " (es.map (fun e => pyStrCore fuel e.2)) ++ "\x7d"

/-- Python `str()` of a payload value, as assigned to `cell.text`
(nesting depth 64 covers every payload the claims concern). -/
def pyStr (v : PyVal) : String := pyStrCore 64 v

/-! ## Numeric coercion (dynamictable.py lines 441-468) -/

/-- Value of a list of decimal digit characters. -/
def digitsToNat (cs : List Char) : ℕ :=
  cs.foldl (fun a c => 10 * a + (c.toNat - 48)) 0

/-- Split a character list on `'.'` (list-level `str.split('.')`). -/
def partsAux : List Char → List (List Char)
  | [] => [[]]
  | c :: rest =>
    if c = '.' then [] :: partsAux rest
    else
      match partsAux rest with
      | [] => [[c]]
      | p :: ps => (c :: p) :: ps

/-- Python `str.isdigit()` on a character list (ASCII digits). -/
def pyIsdigit (cs : List Char) : Bool :=
  !cs.isEmpty && cs.all Char.isDigit

/-- `value.replace('.', '').replace('-', '')` on a character list. -/
def removeDotDash (cs : List Char) : List Char :=
  (cs.filter fun c => !(c == '.')).filter fun c => !(c == '-')

/-- The defensive guard at lines 448/462:
`value.replace('.', '').replace('-', '').isdigit()`. -/
def strGuard (s : String) : Bool :=
  pyIsdigit (removeDotDash s.toList)

/-- Unsigned part of `float(s)`: digit characters with at most one decimal
point, at least one digit. -/
def pyFloatMag (cs : List Char) : Option Dec :=
  match partsAux cs with
  | [ip] => if pyIsdigit ip then some (Dec.ofInt (digitsToNat ip)) else Option.none
  | [ip, fp] =>
    if (!ip.isEmpty || !fp.isEmpty) && ip.all Char.isDigit && fp.all Char.isDigit then
      some ⟨(digitsToNat ip : ℤ) * (10 : ℤ) ^ fp.length + (digitsToNat fp : ℤ),
            (10 : ℤ) ^ fp.length⟩
    else Option.none
  | _ => Option.none

/-- Python `float(s)`, modelled on the plain decimal numerals (optional
leading minus, digits, at most one decimal point).  Syntaxes Python would
also accept (exponents, a plus sign, surrounding whitespace, `inf`/`nan`,
underscoresal) contain characters other than digits, `'.'` and `'-'` and are
rejected by the `strGuard` check before `float` is ever reached in the
source, so the model returns `Option.none` for them. -/
def pyFloatL (cs : List Char) : Option Dec :=
  match cs with
  | [] => Option.none
  | c :: rest => if c = '-' then (pyFloatMag rest).map Dec.neg else pyFloatMag (c :: rest)

/-- The numeric coercion applied by `calculate_column_total` /
`calculate_grand_total` (lines 446-453 and 460-467): strings pass the
`isdigit` guard and then `float()` (a parse failure inside the `try` is
caught and contributes nothing); numbers coerce by `float()`; `None` and
containers raise `TypeError`, which is caught and contributes nothing. -/
def coerce_value (v : PyVal) : Dec :=
  match v with
  | .str s => if strGuard s then (pyFloatL s.toList).getD Dec.zero else Dec.zero
  | .int z => Dec.ofInt z
  | .float x => x
  | _ => Dec.zero

/-- Modelled from the spec's words (§4.5 step 5): "numeric strings parse
directly; non-numeric or missing values contribute 0; this coercion must not
raise on malformed input".  A numeric string is a plain decimal numeral. -/
def spec_coerce (v : PyVal) : Dec :=
  match v with
  | .str s => (pyFloatL s.toList).getD Dec.zero
  | .int z => Dec.ofInt z
  | .float x => x
  | _ => Dec.zero

/-! ## Color map and format detection (dynamictable.py lines 160-173) -/

/-- `parse_color_mapping` (lines 160-165): for each entry, for each key-value
pair, `cmap[k] = v.get("color") if isinstance(v, dict) else v`.  A dict value
without a `"color"` key yields Python `None`. -/
def parse_color_mapping (colors : List PyDict) : PyDict :=
  colors.foldl
    (fun cmap c =>
      c.foldl
        (fun cm kv =>
          pyDictSet cm kv.1
            (match kv.2 with
             | .dict es => (List.lookup "color" es).getD .none
             | v => v))
        cmap)
    []

/-- The per-value extraction rule of the Color Map Builder, as the spec
states it: "if the value is itself a mapping, extract its `color` field;
otherwise use the value directly". -/
def extractColor (v : PyVal) : PyVal :=
  match v with
  | .dict es => (List.lookup "color" es).getD .none
  | v => v

/-- `detect_table_format` (lines 166-173).  `headers` truthiness is
non-emptiness (the caller defaults an absent `headers` field to `[]`). -/
def detect_table_format (rows : List Row) (headers : List String)
    (_colors : List PyDict) : String :=
  match rows with
  | [] => "simple"
  | r :: _ =>
    if (List.lookup "phaseType" r).isSome || (List.lookup "phase" r).isSome then "phase_based"
    else if !headers.isEmpty then "custom"
    else "simple"

/-! ## Month maps and totals (dynamictable.py lines 389-472) -/

/-- The `month_map` built for one row (lines 393-396 / 434-439):
`for month_obj in row.get('months', []): for name, info in month_obj.items():
month_map[name] = info`. -/
def monthMapOfRow (r : Row) : PyDict :=
  (asList (pyGet r "months" (.list []))).foldl
    (fun mm mObj => (asDict mObj).foldl (fun mm2 kv => pyDictSet mm2 kv.1 kv.2) mm)
    []

/-- `calculate_column_total` (lines 441-454): running float sum over the
per-row month maps of the coerced `value` field for `header`. -/
def calculate_column_total (month_maps : List PyDict) (header : String) : Dec :=
  month_maps.foldl
    (fun acc mm =>
      acc.add (coerce_value (pyGet (asDict (pyGet mm header (.dict []))) "value" (.int 0))))
    Dec.zero

/-- `calculate_grand_total` (lines 456-468): running float sum of each row's
coerced `Total` field. -/
def calculate_grand_total (rows : List Row) : Dec :=
  rows.foldl (fun acc r => acc.add (coerce_value (pyGet r "Total" (.int 0)))) Dec.zero

/-- Sum of a list of exact rationals (the Σ of the spec's totals clause). -/
def sumDec (l : List Dec) : Dec := l.foldl Dec.add Dec.zero

/-- Spec-side contribution of one row to the column total of series `h`
(§8 "Totals correctness": `coerce(r_i[s_j].value)`, with a missing series
entry or a missing `value` field contributing 0). -/
def spec_series_contrib (r : Row) (h : String) : Dec :=
  match List.lookup h (monthMapOfRow r) with
  | Option.none => Dec.zero
  | some mi =>
    match List.lookup "value" (asDict mi) with
    | Option.none => Dec.zero
    | some v => spec_coerce v

/-- Spec-side contribution of one row to the grand total
(`coerce(r_i.Total)`, a missing `Total` field contributing 0). -/
def spec_total_contrib (r : Row) : Dec :=
  match List.lookup "Total" r with
  | Option.none => Dec.zero
  | some v => spec_coerce v

/-! ## Rendering of computed totals (dynamictable.py lines 491, 497) -/

/-- `round(t, 2) * 100` as an integer (for `0 < t.d`): round half to even,
the exact-rational idealisation of Python's float `round`. -/
def pyRoundHalfEven2 (t : Dec) : ℤ :=
  if 2 * ((100 * t.n) % t.d) = t.d then
    (if (100 * t.n / t.d) % 2 = 0 then 100 * t.n / t.d else 100 * t.n / t.d + 1)
  else (2 * (100 * t.n) + t.d) / (2 * t.d)

/-- Python `str()` of the float `k/100` (used for the rounded branch of the
totals rendering: at most two decimals, trailing zero in the hundredths
place dropped, `.0` shown when the rounded value is integral). -/
def floatStrH (k : ℤ) : String :=
  let sign := if k < 0 then "-" else ""
  let m := k.natAbs
  let ip := m / 100
  let fp := m % 100
  let frac :=
    if fp = 0 then "0"
    else if fp % 10 = 0 then toString (fp / 10)
    else if fp < 10 then "0" ++ toString fp
    else toString fp
  sign ++ toString ip ++ "." ++ frac

/-- The totals-cell rendering
`str(int(t)) if t == int(t) else str(round(t, 2))` (lines 491 and 497). -/
def renderTotal (t : Dec) : String :=
  if t.isInt then toString t.toInt else floatStrH (pyRoundHalfEven2 t)

/-! ## Cells and tables

A rendered cell records the attributes the source sets: `text`, shading fill
(`set_cell_shading` stores the color with `'#'` removed), bold, font size in
half-points, horizontal alignment, vertical alignment.  The font name
(always "Calibri") and the column widths applied by `enforce_column_widths`
(lines 78-101, width attributes only) are not tracked. -/

structure Cell where
  text : String
  shading : Option String
  bold : Bool
  size : ℕ
  align : String
  valign : Option String
deriving DecidableEq, Repr

/-- A rendered table: its rows of cells, in order (header row first; for the
custom strategy the totals row last). -/
structure Table where
  rows : List (List Cell)
deriving DecidableEq, Repr

/-- The header texts of a table (texts of its first row). -/
def headersOf (t : Table) : List String := (t.rows.headD []).map Cell.text

/-- The aggregate (last) row of a table. -/
def totalsRowOf (t : Table) : List Cell := t.rows.getLastD []

/-- `color_hex.replace("#", "")` in `set_cell_shading` (line 25). -/
def stripHash (s : String) : String :=
  (s.toList.filter fun c => !(c == '#')).asString

/-- View a `PyVal` as a plain string.  The source hands such values straight
to python-docx (`cell.text = ...`, `color_hex.replace(...)`), which raises
on non-strings; those inputs are outside the data model and map to `""`. -/
def asStrVal (v : PyVal) : String :=
  match v with
  | .str s => s
  | _ => ""

/-- Python `phase in color_map` (the keys of a parsed color map are
strings, so only string phases can match). -/
def memColorMap (phase : PyVal) (cm : PyDict) : Bool :=
  match phase with
  | .str s => (List.lookup s cm).isSome
  | _ => false

/-- Python `color_map[phase]` under `memColorMap phase cm = true`. -/
def cmGet (phase : PyVal) (cm : PyDict) : PyVal :=
  match phase with
  | .str s => (List.lookup s cm).getD .none
  | _ => .none

/-! ## `_create_single_table` (dynamictable.py lines 365-506) -/

/-- One header cell of a custom-strategy table (lines 374-387). -/
def customHeaderCell (idx : ℕ) (h : String) (header_color : String) : Cell :=
  { text := h
    shading := some (stripHash header_color)
    bold := true
    size := HEADER_FONT_SIZE
    align := if idx = 0 then "center" else if idx = 1 then "left" else "center"
    valign := some "center" }

/-- The header row of a custom-strategy table, cells indexed from `idx`. -/
def customHeaderRow (hs : List String) (header_color : String) (idx : ℕ) : List Cell :=
  match hs with
  | [] => []
  | h :: rest => customHeaderCell idx h header_color :: customHeaderRow rest header_color (idx + 1)

/-- One data cell of a custom-strategy table (lines 398-431): column 0 is
the 1-based row index; a `Staff` or `Total` header reads the row's static
field; any other header reads the `value` of the row's month-map entry
(empty string when absent), shaded by the entry's `phase` color. -/
def customDataCell (idx : ℕ) (h : String) (r : Row) (rowIdx : ℕ) (color_map : PyDict) :
    Cell :=
  let month_info := pyGet (monthMapOfRow r) h (.dict [])
  if idx = 0 then
    { text := toString (rowIdx + 1), shading := Option.none, bold := false
      size := DEFAULT_FONT_SIZE, align := "center", valign := some "center" }
  else if h = "Staff" then
    { text := pyStr (pyGet r h (.str "")), shading := Option.none, bold := false
      size := STAFF_FONT_SIZE, align := "left", valign := some "top" }
  else if h = "Total" then
    { text := pyStr (pyGet r h (.str "")), shading := Option.none, bold := true
      size := DEFAULT_FONT_SIZE, align := "center", valign := some "top" }
  else
    let phase := pyGet (asDict month_info) "phase" .none
    { text := pyStr (pyGet (asDict month_info) "value" (.str ""))
      shading :=
        if pyTruthy phase && memColorMap phase color_map then
          some (stripHash (asStrVal (cmGet phase color_map)))
        else Option.none
      bold := false, size := DEFAULT_FONT_SIZE, align := "center", valign := some "top" }

/-- One data row of a custom-strategy table, cells indexed from `idx`. -/
def customDataRowAux (hs : List String) (r : Row) (rowIdx : ℕ) (cm : PyDict) (idx : ℕ) :
    List Cell :=
  match hs with
  | [] => []
  | h :: rest => customDataCell idx h r rowIdx cm :: customDataRowAux rest r rowIdx cm (idx + 1)

/-- The data rows of a custom-strategy table, rows indexed from `rowIdx`. -/
def customDataRows (rows : List Row) (hs : List String) (cm : PyDict) (rowIdx : ℕ) :
    List (List Cell) :=
  match rows with
  | [] => []
  | r :: rest => customDataRowAux hs r rowIdx cm 0 :: customDataRows rest hs cm (rowIdx + 1)

/-- One cell of the aggregate row (lines 477-500). -/
def totalsCell (idx : ℕ) (h : String) (nRows : ℕ) (column_totals : List Dec)
    (grand_total : Dec) : Cell :=
  if idx = 0 then
    { text := toString (nRows + 1), shading := Option.none, bold := false
      size := DEFAULT_FONT_SIZE, align := "center", valign := some "center" }
  else if idx = 1 then
    { text := "Total", shading := Option.none, bold := true
      size := STAFF_FONT_SIZE, align := "left", valign := some "center" }
  else if h = "Total" then
    { text := renderTotal grand_total, shading := Option.none, bold := true
      size := DEFAULT_FONT_SIZE, align := "center", valign := some "center" }
  else
    { text := renderTotal (column_totals.getD (idx - 2) Dec.zero), shading := Option.none
      bold := true, size := DEFAULT_FONT_SIZE, align := "center", valign := some "center" }

/-- The aggregate row, cells indexed from `idx`. -/
def totalsRowAux (hs : List String) (nRows : ℕ) (column_totals : List Dec)
    (grand_total : Dec) (idx : ℕ) : List Cell :=
  match hs with
  | [] => []
  | h :: rest =>
    totalsCell idx h nRows column_totals grand_total
      :: totalsRowAux rest nRows column_totals grand_total (idx + 1)

/-- `_create_single_table` (lines 365-506).  The `month_chunk`,
`has_total_in_this_table` and `is_split_table` parameters only feed
`enforce_column_widths` (width attributes, untracked) or are unused in the
source, so they do not influence the result. -/
def create_single_table (table_headers : List String) (rows : List Row)
    (color_map : PyDict) (header_color : String) (month_chunk : List String)
    (has_total_in_this_table : Bool) (is_split_table : Bool) : Table :=
  let month_maps := rows.map monthMapOfRow
  let column_totals := (table_headers.drop 2).map (calculate_column_total month_maps)
  let grand_total := calculate_grand_total rows
  ⟨customHeaderRow table_headers header_color 0
    :: (customDataRows rows table_headers color_map 0
        ++ [totalsRowAux table_headers rows.length column_totals grand_total 0])⟩

/-! ## `_generate_custom_table` (dynamictable.py lines 330-363) -/

/-- `list(m.keys())[0]`: the first key of a month object.  The source
raises `IndexError` on an empty month object (outside the data model). -/
def firstKey (d : PyDict) : String :=
  match d with
  | [] => ""
  | (k, _) :: _ => k

/-- `month_headers = [list(m.keys())[0] for m in rows[0].get('months', [])]`
(line 331). -/
def monthHeadersOf (rows : List Row) : List String :=
  match rows with
  | [] => []
  | r0 :: _ => (asList (pyGet r0 "months" (.list []))).map (fun m => firstKey (asDict m))

/-- `static_headers = [h for h in headers if h not in month_headers]`
(line 332). -/
def staticHeadersOf (headers : List String) (rows : List Row) : List String :=
  headers.filter (fun h => !(monthHeadersOf rows).contains h)

/-- The chunking loop of `_generate_custom_table` (lines 337-351):
consecutive chunks of at most 16 series columns; the `"Total"` header is
appended only to the last chunk and only when that chunk has fewer than 16
series columns. -/
def chunkLoop (static2 : List String) (rows : List Row) (color_map : PyDict)
    (header_color : String) (has_total : Bool) (months_rest : List String)
    (first : Bool) : List Table :=
  if hm : months_rest = [] then []
  else
    let chunk := months_rest.take MAX_DYNAMIC_COLS
    let rest := months_rest.drop MAX_DYNAMIC_COLS
    let is_last := rest.isEmpty
    let t :=
      if has_total && is_last && decide (chunk.length < MAX_DYNAMIC_COLS) then
        create_single_table (static2 ++ chunk ++ ["Total"]) rows color_map header_color
          chunk true (!first)
      else
        create_single_table (static2 ++ chunk) rows color_map header_color
          chunk false (!first)
    t :: chunkLoop static2 rows color_map header_color has_total rest false
termination_by months_rest.length
decreasing_by
  have h0 : months_rest.length ≠ 0 := fun hlen => hm (List.length_eq_zero.mp hlen)
  simp only [List.length_drop]
  have : 0 < MAX_DYNAMIC_COLS := by decide
  omega

/-- `_generate_custom_table` (lines 330-363).  The empty-rows case is
unreachable (the caller returns before reaching it; the source would raise
on `rows[0]`). -/
def generate_custom_table (headers : List String) (rows : List Row)
    (color_map : PyDict) (header_color : String) (legend : List PyDict) : List Table :=
  match rows with
  | [] => []
  | _ :: _ =>
    let month_headers := monthHeadersOf rows
    let static_headers := staticHeadersOf headers rows
    let has_total := static_headers.contains "Total"
    if MAX_DYNAMIC_COLS < month_headers.length then
      let ts := chunkLoop (static_headers.take 2) rows color_map header_color has_total
        month_headers true
      if has_total && (month_headers.length % MAX_DYNAMIC_COLS == 0) then
        ts ++ [create_single_table (static_headers.take 2 ++ ["Total"]) rows color_map
          header_color [] true true]
      else ts
    else
      [create_single_table headers rows color_map header_color month_headers has_total false]

/-! ## Simple and phase-based tables (dynamictable.py lines 232-327) -/

/-- One header cell of a simple / phase-based table (the header loops at
lines 239-253 and 291-305 are identical; no vertical alignment is set). -/
def plainHeaderCell (idx : ℕ) (h : String) (header_color : String) : Cell :=
  { text := h
    shading := some (stripHash header_color)
    bold := true
    size := HEADER_FONT_SIZE
    align := if idx = 0 then "center" else if idx = 1 then "left" else "center"
    valign := Option.none }

/-- The shared header row of the simple and phase-based strategies. -/
def plainHeaderRow (hs : List String) (header_color : String) (idx : ℕ) : List Cell :=
  match hs with
  | [] => []
  | h :: rest => plainHeaderCell idx h header_color :: plainHeaderRow rest header_color (idx + 1)

/-- One data cell of a simple table (lines 307-323). -/
def simpleDataCell (idx : ℕ) (h : String) (r : Row) : Cell :=
  { text := pyStr (pyGet r h (.str ""))
    shading := Option.none
    bold := false
    size := if idx = 1 then STAFF_FONT_SIZE else DEFAULT_FONT_SIZE
    align := if idx = 0 then "center" else if idx = 1 then "left" else "center"
    valign := Option.none }

/-- One data row of a simple table, cells indexed from `idx`. -/
def simpleDataRowAux (hs : List String) (r : Row) (idx : ℕ) : List Cell :=
  match hs with
  | [] => []
  | h :: rest => simpleDataCell idx h r :: simpleDataRowAux rest r (idx + 1)

/-- `_generate_simple_table` (lines 284-327).  The empty-rows case is
unreachable (the caller returns before reaching it). -/
def generate_simple_table (rows : List Row) (color_map : PyDict)
    (header_color : String) : Table :=
  match rows with
  | [] => ⟨[]⟩
  | r0 :: _ =>
    let headers := r0.map Prod.fst
    ⟨plainHeaderRow headers header_color 0 :: rows.map (fun r => simpleDataRowAux headers r 0)⟩

/-- `phase = r.get('phaseType') or r.get('phase')` (line 259). -/
def rowPhase (r : Row) : PyVal :=
  let a := pyGet r "phaseType" .none
  if pyTruthy a then a else pyGet r "phase" .none

/-- One data cell of a phase-based table (lines 261-276): whole-row shading
from the row's phase discriminator. -/
def phaseDataCell (idx : ℕ) (h : String) (r : Row) (color_map : PyDict) : Cell :=
  let phase := rowPhase r
  { text := pyStr (pyGet r h (.str ""))
    shading :=
      if pyTruthy phase && memColorMap phase color_map then
        some (stripHash (asStrVal (cmGet phase color_map)))
      else Option.none
    bold := false
    size := if idx = 1 then STAFF_FONT_SIZE else DEFAULT_FONT_SIZE
    align := if idx = 0 then "center" else if idx = 1 then "left" else "center"
    valign := Option.none }

/-- One data row of a phase-based table, cells indexed from `idx`. -/
def phaseDataRowAux (hs : List String) (r : Row) (color_map : PyDict) (idx : ℕ) : List Cell :=
  match hs with
  | [] => []
  | h :: rest => phaseDataCell idx h r color_map :: phaseDataRowAux rest r color_map (idx + 1)

/-- `_generate_phase_based_table` (lines 232-281).  The empty-rows case is
unreachable (the caller returns before reaching it). -/
def generate_phase_based_table (rows : List Row) (color_map : PyDict)
    (header_color : String) : Table :=
  match rows with
  | [] => ⟨[]⟩
  | r0 :: _ =>
    let headers := (r0.map Prod.fst).filter (fun k => !(k == "phaseType") && !(k == "phase"))
    ⟨plainHeaderRow headers header_color 0
      :: rows.map (fun r => phaseDataRowAux headers r color_map 0)⟩

/-- One legend row's cell (lines 132-143). -/
def legendCell (item : PyDict) (color_map : PyDict) : Cell :=
  let phase_name := pyGet item "phase" (.str "")
  let default_color : PyVal :=
    match phase_name with
    | .str s => (List.lookup s color_map).getD (.str "#FFFFFF")
    | _ => .str "#FFFFFF"
  let phase_color := pyGet item "color" default_color
  { text := asStrVal phase_name
    shading := if pyTruthy phase_color then some (stripHash (asStrVal phase_color)) else Option.none
    bold := true
    size := DEFAULT_FONT_SIZE
    align := "center"
    valign := Option.none }

/-- `_generate_legend_table` (lines 117-145): a one-column table, one row
per legend entry. -/
def generate_legend_table (legend : List PyDict) (color_map : PyDict) : Table :=
  ⟨legend.map (fun item => [legendCell item color_map])⟩

/-! ## Document model and `generate_dynamic_table` (dynamictable.py lines 147-229) -/

/-- An element appended into a content-control region: a table or a spacing
paragraph (the spacing point sizes are not tracked). -/
inductive OutEl where
  | tbl (t : Table)
  | spacing
deriving DecidableEq

/-- A top-level element of the document body: a content-control (`w:sdt`)
element carrying its `w:tag` value, its `w:alias` value and its content, or
any other block element. -/
inductive BodyEl where
  | sdt (tagv : Option String) (aliasv : Option String) (content : List OutEl)
  | block
deriving DecidableEq

/-- Whether an sdt element matches a title, by its alias or its tag value
(`find_sdt_by_title`, lines 149-157, checks both on each element). -/
def sdtMatches (el : BodyEl) (title : String) : Bool :=
  match el with
  | .sdt tagv aliasv _ => aliasv == some title || tagv == some title
  | .block => false

/-- `find_sdt_by_title` (lines 149-157): the first matching sdt element in
document order, or `None`. -/
def find_sdt_by_title (doc : List BodyEl) (title : String) : Option BodyEl :=
  doc.find? (fun el => sdtMatches el title)

/-- Clear the first matching sdt's content and set it to `content`
(lines 194-197 clear, the strategy branches append). -/
def replaceFirstSdtContent (doc : List BodyEl) (title : String) (content : List OutEl) :
    List BodyEl :=
  match doc with
  | [] => []
  | el :: rest =>
    if sdtMatches el title then
      (match el with
       | .sdt tagv aliasv _ => BodyEl.sdt tagv aliasv content
       | .block => el) :: rest
    else el :: replaceFirstSdtContent rest title content

/-- The chunk tables with a spacing paragraph before every chunk after the
first (lines 206-213). -/
def spacedTables (ts : List Table) : List OutEl :=
  match ts with
  | [] => []
  | t :: rest => OutEl.tbl t :: (rest.map (fun t2 => [OutEl.spacing, OutEl.tbl t2])).flatten

/-- The `data` payload of `generate_dynamic_table`.  Fields the source reads
with `data.get(key, [])` are stored with the default already applied (an
absent list field and an empty one are indistinguishable in the source);
`headerColor` keeps its absence observable because its default is applied
separately. -/
structure Payload where
  headers : List String
  rows : List Row
  colors : List PyDict
  legend : List PyDict
  headerColor : Option String

/-- `header_color = data.get("headerColor", "#333399")` (line 182). -/
def headerColorOf (data : Payload) : String :=
  data.headerColor.getD "#333399"

/-- `generate_dynamic_table` (lines 176-229). -/
def generate_dynamic_table (doc : List BodyEl) (tag : String) (data : Payload) :
    List BodyEl :=
  let headers := data.headers
  let rows := data.rows
  let colors := data.colors
  let legend := data.legend
  let header_color := headerColorOf data
  if rows.isEmpty then doc
  else
    let color_map := parse_color_mapping colors
    let table_format := detect_table_format rows headers colors
    match find_sdt_by_title doc tag with
    | Option.none => doc
    | some _ =>
      let body :=
        if table_format = "phase_based" then
          [OutEl.tbl (generate_phase_based_table rows color_map header_color)]
        else if table_format = "custom" then
          spacedTables (generate_custom_table headers rows color_map header_color legend)
        else
          [OutEl.tbl (generate_simple_table rows color_map header_color)]
      let full :=
        if legend.isEmpty then body
        else body ++ [OutEl.spacing, OutEl.tbl (generate_legend_table legend color_map)]
      replaceFirstSdtContent doc tag full

/-- Example data for the exact-multiple boundary: 16 series columns. -/
def c2ex_headers : List String :=
  ["S.No", "Staff", "M1", "M2", "M3", "M4", "M5", "M6", "M7", "M8", "M9", "M10", "M11", "M12", "M13", "M14", "M15", "M16", "Total"]

/-- The 16 month objects of the boundary example's single row. -/
def c2ex_months : List PyVal :=
  [PyVal.dict [("M1", PyVal.dict [("value", PyVal.int 1)])],
   PyVal.dict [("M2", PyVal.dict [("value", PyVal.int 1)])],
   PyVal.dict [("M3", PyVal.dict [("value", PyVal.int 1)])],
   PyVal.dict [("M4", PyVal.dict [("value", PyVal.int 1)])],
   PyVal.dict [("M5", PyVal.dict [("value", PyVal.int 1)])],
   PyVal.dict [("M6", PyVal.dict [("value", PyVal.int 1)])],
   PyVal.dict [("M7", PyVal.dict [("value", PyVal.int 1)])],
   PyVal.dict [("M8", PyVal.dict [("value", PyVal.int 1)])],
   PyVal.dict [("M9", PyVal.dict [("value", PyVal.int 1)])],
   PyVal.dict [("M10", PyVal.dict [("value", PyVal.int 1)])],
   PyVal.dict [("M11", PyVal.dict [("value", PyVal.int 1)])],
   PyVal.dict [("M12", PyVal.dict [("value", PyVal.int 1)])],
   PyVal.dict [("M13", PyVal.dict [("value", PyVal.int 1)])],
   PyVal.dict [("M14", PyVal.dict [("value", PyVal.int 1)])],
   PyVal.dict [("M15", PyVal.dict [("value", PyVal.int 1)])],
   PyVal.dict [("M16", PyVal.dict [("value", PyVal.int 1)])]]

/-- One pivoted row carrying 16 series entries. -/
def c2ex_rows : List Row :=
  [[("Staff", PyVal.str "A"), ("months", PyVal.list c2ex_months)]]

/-- Example data with 17 series columns (one chunk of 16 plus one of 1). -/
def c2wit_headers : List String :=
  ["S.No", "Staff", "M1", "M2", "M3", "M4", "M5", "M6", "M7", "M8", "M9", "M10", "M11", "M12", "M13", "M14", "M15", "M16", "M17", "Total"]

/-- The 17 month objects of the wide example's single row. -/
def c2wit_months : List PyVal :=
  [PyVal.dict [("M1", PyVal.dict [("value", PyVal.int 1)])],
   PyVal.dict [("M2", PyVal.dict [("value", PyVal.int 1)])],
   PyVal.dict [("M3", PyVal.dict [("value", PyVal.int 1)])],
   PyVal.dict [("M4", PyVal.dict [("value", PyVal.int 1)])],
   PyVal.dict [("M5", PyVal.dict [("value", PyVal.int 1)])],
   PyVal.dict [("M6", PyVal.dict [("value", PyVal.int 1)])],
   PyVal.dict [("M7", PyVal.dict [("value", PyVal.int 1)])],
   PyVal.dict [("M8", PyVal.dict [("value", PyVal.int 1)])],
   PyVal.dict [("M9", PyVal.dict [("value", PyVal.int 1)])],
   PyVal.dict [("M10", PyVal.dict [("value", PyVal.int 1)])],
   PyVal.dict [("M11", PyVal.dict [("value", PyVal.int 1)])],
   PyVal.dict [("M12", PyVal.dict [("value", PyVal.int 1)])],
   PyVal.dict [("M13", PyVal.dict [("value", PyVal.int 1)])],
   PyVal.dict [("M14", PyVal.dict [("value", PyVal.int 1)])],
   PyVal.dict [("M15", PyVal.dict [("value", PyVal.int 1)])],
   PyVal.dict [("M16", PyVal.dict [("value", PyVal.int 1)])],
   PyVal.dict [("M17", PyVal.dict [("value", PyVal.int 1)])]]

/-- One pivoted row carrying 17 series entries. -/
def c2wit_rows : List Row :=
  [[("Staff", PyVal.str "A"), ("months", PyVal.list c2wit_months)]]

/-- One pivoted row with the single series `Jan`. -/
def c3ex_rows : List Row :=
  [[("months", PyVal.list [PyVal.dict [("Jan", PyVal.dict [("value", PyVal.int 1)])]])]]

/-- The series columns a rendered table actually shows: its headers that are
among the series (month) names. -/
def seriesColsOf (t : Table) (months : List String) : List String :=
  (headersOf t).filter (fun h => months.contains h)

/-! ## Properties of the numeric-string guard and parse -/

theorem partsAux_ne_nil (cs : List Char) : partsAux cs ≠ [] := by
  induction cs with
  | nil => simp [partsAux]
  | cons c rest ih =>
    unfold partsAux
    by_cases hc : c = '.'
    · simp [hc]
    · rw [if_neg hc]
      rcases h : partsAux rest with _ | ⟨p, ps⟩
      · simp
      · simp

theorem partsAux_flatten (cs : List Char) :
    (partsAux cs).flatten = cs.filter (fun c => !(c == '.')) := by
  induction cs with
  | nil => simp [partsAux]
  | cons c rest ih =>
    unfold partsAux
    by_cases hc : c = '.'
    · subst hc
      simp [List.filter_cons, ih]
    · rw [if_neg hc]
      rcases h : partsAux rest with _ | ⟨p, ps⟩
      · exact absurd h (partsAux_ne_nil rest)
      · rw [h] at ih
        simp only [List.flatten_cons] at ih ⊢
        simp [List.filter_cons, beq_eq_false_iff_ne.mpr hc, ← ih]

theorem isDigit_bne_dot {c : Char} (h : c.isDigit = true) : (c == '.') = false := by
  by_cases hc : c = '.'
  · subst hc; simp [Char.isDigit] at h
  · exact beq_eq_false_iff_ne.mpr hc

theorem isDigit_bne_dash {c : Char} (h : c.isDigit = true) : (c == '-') = false := by
  by_cases hc : c = '-'
  · subst hc; simp [Char.isDigit] at h
  · exact beq_eq_false_iff_ne.mpr hc

theorem filter_dash_of_digits {l : List Char} (h : l.all Char.isDigit = true) :
    (l.filter fun c => !(c == '-')) = l := by
  apply List.filter_eq_self.mpr
  intro c hc
  simp only [Bool.not_eq_true']
  exact isDigit_bne_dash (by
    have := List.all_eq_true.mp h c hc
    exact this)

/-- If the modelled `float()` succeeds, the `isdigit` guard also passes:
the source's guard is exactly a necessary condition for the parse. -/
theorem pyFloatMag_guard {cs : List Char} {x : Dec} (h : pyFloatMag cs = some x) :
    pyIsdigit (removeDotDash cs) = true := by
  unfold pyFloatMag at h
  rcases hp : partsAux cs with _ | ⟨ip, _ | ⟨fp, _ | ⟨c3, r3⟩⟩⟩ <;> rw [hp] at h <;>
    simp only [] at h
  · exact absurd hp (partsAux_ne_nil cs)
  · split at h
    case isTrue hip =>
      have hfil : cs.filter (fun c => !(c == '.')) = ip := by
        rw [← partsAux_flatten, hp]; simp
      unfold removeDotDash
      rw [hfil]
      unfold pyIsdigit at hip ⊢
      have hall := (Bool.and_eq_true _ _).mp hip
      rw [filter_dash_of_digits hall.2]
      exact hip
    case isFalse => exact absurd h (by simp)
  · split at h
    case isTrue hcond =>
      have h1 := (Bool.and_eq_true _ _).mp hcond
      have h2 := (Bool.and_eq_true _ _).mp h1.1
      have hne : (!ip.isEmpty || !fp.isEmpty) = true := h2.1
      have hipd : ip.all Char.isDigit = true := h2.2
      have hfpd : fp.all Char.isDigit = true := h1.2
      have hfil : cs.filter (fun c => !(c == '.')) = ip ++ fp := by
        rw [← partsAux_flatten, hp]; simp
      unfold removeDotDash
      rw [hfil]
      have hd : (ip ++ fp).all Char.isDigit = true := by
        simp only [List.all_append]
        exact (Bool.and_eq_true _ _).mpr ⟨hipd, hfpd⟩
      unfold pyIsdigit
      rw [filter_dash_of_digits hd]
      apply (Bool.and_eq_true _ _).mpr
      refine ⟨?_, hd⟩
      rcases (Bool.or_eq_true _ _).mp hne with he | he <;>
        · simp only [Bool.not_eq_true', List.isEmpty_eq_false_iff_exists_mem] at he ⊢
          obtain ⟨a, ha⟩ := he
          exact ⟨a, by simp [ha]⟩
    case isFalse => exact absurd h (by simp)
  · exact absurd h (by simp)

theorem pyFloatL_guard {cs : List Char} {x : Dec} (h : pyFloatL cs = some x) :
    pyIsdigit (removeDotDash cs) = true := by
  cases cs with
  | nil => simp [pyFloatL] at h
  | cons c rest =>
    unfold pyFloatL at h
    simp only [] at h
    by_cases hc : c = '-'
    · rw [if_pos hc] at h
      obtain ⟨y, hy, -⟩ := Option.map_eq_some'.mp h
      have hg := pyFloatMag_guard hy
      subst hc
      unfold removeDotDash at hg ⊢
      simp only [List.filter_cons]
      norm_num
      exact hg
    · rw [if_neg hc] at h
      exact pyFloatMag_guard h

/-- The source's guarded coercion agrees with the spec-side coercion. -/
theorem coerce_value_eq_spec (v : PyVal) : coerce_value v = spec_coerce v := by
  cases v with
  | str s =>
    unfold coerce_value spec_coerce strGuard
    rcases h : pyFloatL s.toList with _ | x
    · have h' : pyFloatL s.data = Option.none := h
      simp [h']
    · have hg' : pyIsdigit (removeDotDash s.data) = true := pyFloatL_guard h
      have h' : pyFloatL s.data = some x := h
      simp [hg', h']
  | none => rfl
  | int z => rfl
  | float x => rfl
  | list xs => rfl
  | dict es => rfl

/-! ## General dictionary lemmas -/

theorem lookup_pyDictSet (d : PyDict) (k k' : String) (v : PyVal) :
    List.lookup k' (pyDictSet d k v) = if k = k' then some v else List.lookup k' d := by
  induction d with
  | nil =>
    by_cases h : k = k'
    · subst h; simp [pyDictSet, List.lookup]
    · simp [pyDictSet, List.lookup, h, beq_eq_false_iff_ne.mpr (Ne.symm h)]
  | cons kv rest ih =>
    obtain ⟨k0, v0⟩ := kv
    unfold pyDictSet
    by_cases h0 : k0 = k
    · subst h0
      rw [if_pos rfl]
      by_cases h : k0 = k'
      · subst h; simp [List.lookup]
      · simp [List.lookup, beq_eq_false_iff_ne.mpr (Ne.symm h), h]
    · rw [if_neg h0]
      by_cases h : k0 = k'
      · subst h
        have : k ≠ k0 := fun e => h0 e.symm
        simp [List.lookup, this]
      · simp [List.lookup, beq_eq_false_iff_ne.mpr (Ne.symm h), ih]

theorem lookup_foldl_pyDictSet (f : PyVal → PyVal) (l : List (String × PyVal))
    (m0 : PyDict) (k : String) :
    List.lookup k (l.foldl (fun m kv => pyDictSet m kv.1 (f kv.2)) m0)
      = match l.reverse.find? (fun kv => kv.1 == k) with
        | some kv => some (f kv.2)
        | Option.none => List.lookup k m0 := by
  induction l generalizing m0 with
  | nil => simp
  | cons kv rest ih =>
    simp only [List.foldl_cons, List.reverse_cons, List.find?_append]
    rw [ih]
    rcases hf : rest.reverse.find? (fun kv => kv.1 == k) with _ | kv'
    · rw [hf]
      by_cases hk : kv.1 = k
      · simp [List.find?_cons, hk, lookup_pyDictSet]
      · simp [List.find?_cons, beq_eq_false_iff_ne.mpr hk, lookup_pyDictSet, hk]
    · rw [hf]
      simp

/-! ## Claim C4: format detection -/

/-- C4: format detection is a deterministic function of the first row's keys
and header presence, in this order: empty rows yield `simple`; a first row
containing a `phaseType` or `phase` key yields `phase_based`; otherwise
non-empty supplied headers yield `custom`; otherwise `simple`.  Rows after
the first (and the `colors` argument) are never inspected. -/
theorem claim4_format_detection :
    (∀ headers colors, detect_table_format [] headers colors = "simple")
    ∧ (∀ (r : Row) rs headers colors,
        ((List.lookup "phaseType" r).isSome ∨ (List.lookup "phase" r).isSome) →
        detect_table_format (r :: rs) headers colors = "phase_based")
    ∧ (∀ (r : Row) rs headers colors,
        (List.lookup "phaseType" r).isSome = false → (List.lookup "phase" r).isSome = false →
        headers ≠ [] →
        detect_table_format (r :: rs) headers colors = "custom")
    ∧ (∀ (r : Row) rs colors,
        (List.lookup "phaseType" r).isSome = false → (List.lookup "phase" r).isSome = false →
        detect_table_format (r :: rs) [] colors = "simple")
    ∧ (∀ (r : Row) rs rs' headers colors colors',
        detect_table_format (r :: rs) headers colors
          = detect_table_format (r :: rs') headers colors') := by
  refine ⟨fun _ _ => rfl, ?_, ?_, ?_, ?_⟩
  · intro r rs headers colors h
    unfold detect_table_format
    rcases h with h | h <;> simp [h]
  · intro r rs headers colors h1 h2 h3
    unfold detect_table_format
    simp [h1, h2, h3, List.isEmpty_eq_true]
  · intro r rs colors h1 h2
    unfold detect_table_format
    simp [h1, h2]
  · intro r rs rs' headers colors colors'
    rfl

/-- C4 witness: the spec's three examples. -/
theorem claim4_format_detection_witness :
    detect_table_format [[("phase", PyVal.str "A"), ("x", PyVal.int 1)]] [] []
      = "phase_based"
    ∧ detect_table_format [[("x", PyVal.int 1)]] ["x"] [] = "custom"
    ∧ detect_table_format [[("x", PyVal.int 1)]] [] [] = "simple" :=
  ⟨claim4_format_detection.2.1 _ [] [] [] (Or.inr (by decide)),
   claim4_format_detection.2.2.1 _ [] ["x"] [] (by decide) (by decide) (by decide),
   claim4_format_detection.2.2.2.1 _ [] [] (by decide) (by decide)⟩

/-! ## Claim C6: the color map builder -/

/-- C6: the color map maps each category key to its value — the value's
`color` field when the value is a mapping, the value itself otherwise; for a
duplicate category the last occurrence in input order wins; an empty input
yields the empty mapping. -/
theorem claim6_color_map :
    (∀ (colors : List PyDict) (k : String),
      List.lookup k (parse_color_mapping colors)
        = (colors.flatten.reverse.find? (fun kv => kv.1 == k)).map
            (fun kv => extractColor kv.2))
    ∧ parse_color_mapping [] = [] := by
  refine ⟨?_, rfl⟩
  intro colors k
  have hfold : parse_color_mapping colors
      = colors.flatten.foldl (fun m kv => pyDictSet m kv.1 (extractColor kv.2)) [] := by
    unfold parse_color_mapping
    rw [List.foldl_flatten]
    rfl
  rw [hfold, lookup_foldl_pyDictSet]
  rcases hf : colors.flatten.reverse.find? (fun kv => kv.1 == k) with _ | kv <;> rw [hf] <;> rfl

/-! ## Claims C7 and C8: soft no-ops of `generate_dynamic_table` -/

/-- C7: when the tag matches no content-control region of the document
(neither as a `tag` value nor as an `alias` value), `generate_dynamic_table`
returns the document unchanged. -/
theorem claim7_missing_region_noop (doc : List BodyEl) (tag : String) (data : Payload)
    (h : ∀ el ∈ doc, sdtMatches el tag = false) :
    generate_dynamic_table doc tag data = doc := by
  have hf : find_sdt_by_title doc tag = Option.none := by
    apply List.find?_eq_none.mpr
    intro el hel
    simp [h el hel]
  unfold generate_dynamic_table
  by_cases hr : data.rows.isEmpty
  · simp [hr]
  · simp [hr, hf]

/-- C7 witness: a document with one region titled `summary`, invoked with a
tag that matches nothing, non-empty rows. -/
theorem claim7_missing_region_noop_witness :
    generate_dynamic_table [BodyEl.sdt (some "summary") Option.none []] "missing"
        ⟨[], [[("x", PyVal.int 1)]], [], [], Option.none⟩
      = [BodyEl.sdt (some "summary") Option.none []] :=
  claim7_missing_region_noop _ _ _ (by decide)

/-- C8: with an empty rows list, the document is returned unchanged — even
when the target region exists and a legend is supplied. -/
theorem claim8_empty_rows_noop (doc : List BodyEl) (tag : String) (data : Payload)
    (h : data.rows = []) :
    generate_dynamic_table doc tag data = doc := by
  unfold generate_dynamic_table
  simp [h]

/-- C8 witness: the target region exists and a legend is supplied, yet the
document comes back unchanged. -/
theorem claim8_empty_rows_noop_witness :
    generate_dynamic_table [BodyEl.sdt (some "t1") Option.none [], BodyEl.block] "t1"
        ⟨["A"], [], [], [[("phase", PyVal.str "P")]], some "#111111"⟩
      = [BodyEl.sdt (some "t1") Option.none [], BodyEl.block] :=
  claim8_empty_rows_noop _ _ _ rfl

/-! ## Claim C1: totals correctness -/

theorem foldl_add_eq_sumDec {α : Type} (f : α → Dec) (l : List α) :
    l.foldl (fun acc x => acc.add (f x)) Dec.zero = sumDec (l.map f) := by
  unfold sumDec
  rw [List.foldl_map]

theorem column_contrib_eq (r : Row) (h : String) :
    coerce_value (pyGet (asDict (pyGet (monthMapOfRow r) h (.dict []))) "value" (.int 0))
      = spec_series_contrib r h := by
  unfold spec_series_contrib pyGet
  rcases hm : List.lookup h (monthMapOfRow r) with _ | mi
  · simp [asDict, coerce_value, Dec.ofInt, Dec.zero]
  · simp only [Option.getD_some]
    rcases hv : List.lookup "value" (asDict mi) with _ | v
    · simp [coerce_value, Dec.ofInt, Dec.zero]
    · simp [coerce_value_eq_spec]

theorem calculate_column_total_eq_spec (rows : List Row) (h : String) :
    calculate_column_total (rows.map monthMapOfRow) h
      = sumDec (rows.map (fun r => spec_series_contrib r h)) := by
  unfold calculate_column_total
  rw [List.foldl_map]
  have he : (fun (acc : Dec) (r : Row) =>
        acc.add (coerce_value
          (pyGet (asDict (pyGet (monthMapOfRow r) h (.dict []))) "value" (.int 0))))
      = fun (acc : Dec) (r : Row) => acc.add (spec_series_contrib r h) := by
    funext acc r
    rw [column_contrib_eq]
  rw [he]
  exact foldl_add_eq_sumDec (fun r => spec_series_contrib r h) rows

theorem total_contrib_eq (r : Row) :
    coerce_value (pyGet r "Total" (.int 0)) = spec_total_contrib r := by
  unfold spec_total_contrib pyGet
  rcases hm : List.lookup "Total" r with _ | v
  · simp [coerce_value, Dec.ofInt, Dec.zero]
  · simp [coerce_value_eq_spec]

theorem calculate_grand_total_eq_spec (rows : List Row) :
    calculate_grand_total rows = sumDec (rows.map spec_total_contrib) := by
  unfold calculate_grand_total
  have he : (fun (acc : Dec) (r : Row) => acc.add (coerce_value (pyGet r "Total" (.int 0))))
      = fun (acc : Dec) (r : Row) => acc.add (spec_total_contrib r) := by
    funext acc r
    rw [total_contrib_eq]
  rw [he]
  exact foldl_add_eq_sumDec spec_total_contrib rows

theorem totalsRowAux_getElem? (hs : List String) (nRows : ℕ) (cts : List Dec)
    (grand : Dec) :
    ∀ (i j : ℕ) (h : String), hs[j]? = some h →
      (totalsRowAux hs nRows cts grand i)[j]? = some (totalsCell (i + j) h nRows cts grand) := by
  induction hs with
  | nil => intro i j h hh; simp at hh
  | cons h0 rest ih =>
    intro i j h hh
    cases j with
    | zero =>
      simp at hh
      subst hh
      simp [totalsRowAux]
    | succ j' =>
      simp only [List.getElem?_cons_succ] at hh
      unfold totalsRowAux
      simp only [List.getElem?_cons_succ]
      rw [ih (i + 1) j' h hh]
      congr 2
      omega

theorem totalsRowOf_create (ths : List String) (rows : List Row) (cm : PyDict)
    (hc : String) (ch : List String) (ht sp : Bool) :
    totalsRowOf (create_single_table ths rows cm hc ch ht sp)
      = totalsRowAux ths rows.length
          ((ths.drop 2).map (calculate_column_total (rows.map monthMapOfRow)))
          (calculate_grand_total rows) 0 := by
  unfold create_single_table totalsRowOf
  dsimp only
  rw [List.getLastD_eq_getLast?, ← List.cons_append, List.getLast?_concat]
  rfl

theorem column_totals_getD (ths : List String) (j : ℕ) (h : String)
    (mm : List PyDict) (hj : 2 ≤ j) (hh : ths[j]? = some h) :
    ((ths.drop 2).map (calculate_column_total mm)).getD (j - 2) Dec.zero
      = calculate_column_total mm h := by
  have h1 : (ths.drop 2)[j - 2]? = some h := by
    rw [List.getElem?_drop]
    have he : 2 + (j - 2) = j := by omega
    rw [he]
    exact hh
  have h2 : ((ths.drop 2).map (calculate_column_total mm))[j - 2]?
      = some (calculate_column_total mm h) := by
    rw [List.getElem?_map, h1]
    rfl
  rw [List.getD_eq_getElem?_getD, h2]
  rfl

/-- C1: in the custom strategy, the aggregate row's cell in any column
`j ≥ 2` renders the sum, over all input rows, of the coerced per-series
`value` of that column's series — and for the `Total` column the sum of the
coerced per-row `Total` fields — where coercion parses numeric strings,
sends non-numeric or missing values to 0, and is a total function. -/
theorem claim1_totals_correct (table_headers : List String) (rows : List Row)
    (color_map : PyDict) (header_color : String) (month_chunk : List String)
    (has_total is_split : Bool) (j : ℕ) (h : String)
    (hj : 2 ≤ j) (hh : table_headers[j]? = some h) :
    ((totalsRowOf (create_single_table table_headers rows color_map header_color
        month_chunk has_total is_split))[j]?).map Cell.text
      = some (renderTotal
          (if h = "Total" then sumDec (rows.map spec_total_contrib)
           else sumDec (rows.map (fun r => spec_series_contrib r h)))) := by
  rw [totalsRowOf_create]
  rw [totalsRowAux_getElem? _ _ _ _ 0 j h hh]
  have hj0 : ¬(0 + j = 0) := by omega
  have hj1 : ¬(0 + j = 1) := by omega
  unfold totalsCell
  rw [if_neg hj0, if_neg hj1]
  by_cases hT : h = "Total"
  · rw [if_pos hT, if_pos hT, calculate_grand_total_eq_spec]
    rfl
  · rw [if_neg hT, if_neg hT]
    have hsub : 0 + j - 2 = j - 2 := by omega
    rw [hsub, column_totals_getD _ j h _ hj hh, calculate_column_total_eq_spec]
    rfl

/-- C1 witness: one row whose `Jan` entry has the numeric string value
`"5"`; the aggregate cell under `Jan` reads `"5"`. -/
theorem claim1_totals_correct_witness :
    ((totalsRowOf (create_single_table ["S.No", "Staff", "Jan"]
        [[("Staff", PyVal.str "Alice"),
          ("months", PyVal.list [PyVal.dict [("Jan",
            PyVal.dict [("value", PyVal.str "5"), ("phase", PyVal.str "P1")])]])]]
        [] "#333399" ["Jan"] false false))[2]?).map Cell.text
      = some "5" := by
  have h := claim1_totals_correct ["S.No", "Staff", "Jan"]
    [[("Staff", PyVal.str "Alice"),
      ("months", PyVal.list [PyVal.dict [("Jan",
        PyVal.dict [("value", PyVal.str "5"), ("phase", PyVal.str "P1")])]])]]
    [] "#333399" ["Jan"] false false 2 "Jan" (by omega) (by decide)
  exact h.trans (by decide)

/-! ## Claim C5: rendering of computed totals -/

/-- The rounded hundredths produced by `pyRoundHalfEven2` are within half a
hundredth of the exact value: `|R/100 - n/d| ≤ 1/200`, stated over the
integers as `|2·d·R - 200·n| ≤ d`. -/
theorem pyRoundHalfEven2_close (t : Dec) (hd : 0 < t.d) :
    |2 * t.d * pyRoundHalfEven2 t - 200 * t.n| ≤ t.d := by
  unfold pyRoundHalfEven2
  have h200 : (200 : ℤ) * t.n = 2 * (100 * t.n) := by ring
  by_cases htie : 2 * ((100 * t.n) % t.d) = t.d
  · rw [if_pos htie]
    rw [Int.emod_def] at htie
    by_cases hev : (100 * t.n / t.d) % 2 = 0
    · rw [if_pos hev, abs_le]
      constructor <;> nlinarith [htie, hd]
    · rw [if_neg hev, abs_le]
      constructor <;> nlinarith [htie, hd]
  · rw [if_neg htie]
    have h2d : (0 : ℤ) < 2 * t.d := by omega
    have hid := Int.ediv_add_emod (2 * (100 * t.n) + t.d) (2 * t.d)
    have hnn := Int.emod_nonneg (2 * (100 * t.n) + t.d) (by omega : (2 * t.d) ≠ 0)
    have hlt := Int.emod_lt_of_pos (2 * (100 * t.n) + t.d) h2d
    rw [abs_le]
    constructor <;> nlinarith [hid, hnn, hlt]

/-- C5: a computed total with no fractional part renders as the plain
decimal string of its integer value (no decimal point); a total with a
fractional part renders through `round(·, 2)`, whose result is within half
a hundredth of the exact sum.  Concretely, through the whole pipeline:
column sums `12.0`, `12.5` and `12.333` render as `"12"`, `"12.5"` and
`"12.33"`. -/
theorem claim5_total_rendering :
    ((totalsRowOf (create_single_table ["S.No", "Staff", "M1", "M2", "M3"]
        [[("months", PyVal.list
            [PyVal.dict [("M1", PyVal.dict [("value", PyVal.str "6")])],
             PyVal.dict [("M2", PyVal.dict [("value", PyVal.float ⟨25, 4⟩)])],
             PyVal.dict [("M3", PyVal.dict [("value", PyVal.str "6.111")])]])],
         [("months", PyVal.list
            [PyVal.dict [("M1", PyVal.dict [("value", PyVal.int 6)])],
             PyVal.dict [("M2", PyVal.dict [("value", PyVal.str "6.25")])],
             PyVal.dict [("M3", PyVal.dict [("value", PyVal.float ⟨6222, 1000⟩)])]])]]
        [] "#333399" ["M1", "M2", "M3"] false false)).map Cell.text
      = ["3", "Total", "12", "12.5", "12.33"])
    ∧ (∀ t : Dec, t.isInt = true → renderTotal t = toString t.toInt)
    ∧ (∀ t : Dec, t.isInt = false → 0 < t.d →
        renderTotal t = floatStrH (pyRoundHalfEven2 t)
        ∧ |2 * t.d * pyRoundHalfEven2 t - 200 * t.n| ≤ t.d) := by
  refine ⟨by decide, ?_, ?_⟩
  · intro t ht
    unfold renderTotal
    rw [if_pos ht]
  · intro t ht hd
    unfold renderTotal
    rw [if_neg (by rw [ht]; exact Bool.false_ne_true)]
    exact ⟨rfl, pyRoundHalfEven2_close t hd⟩

/-- C5 witness: the integer case at `12/1` and the fractional case at
`25/2`. -/
theorem claim5_total_rendering_witness :
    renderTotal ⟨12, 1⟩ = toString (Dec.toInt ⟨12, 1⟩)
    ∧ (renderTotal ⟨25, 2⟩ = floatStrH (pyRoundHalfEven2 ⟨25, 2⟩)
       ∧ |2 * (⟨25, 2⟩ : Dec).d * pyRoundHalfEven2 ⟨25, 2⟩ - 200 * (⟨25, 2⟩ : Dec).n|
          ≤ (⟨25, 2⟩ : Dec).d) :=
  ⟨claim5_total_rendering.2.1 _ (by decide),
   claim5_total_rendering.2.2 _ (by decide) (by decide)⟩

/-! ## Claim C9: data-cell dispatch in the custom strategy -/

theorem customDataRowAux_getElem? (hs : List String) (r : Row) (rowIdx : ℕ) (cm : PyDict) :
    ∀ (i j : ℕ) (h : String), hs[j]? = some h →
      (customDataRowAux hs r rowIdx cm i)[j]? = some (customDataCell (i + j) h r rowIdx cm) := by
  induction hs with
  | nil => intro i j h hh; simp at hh
  | cons h0 rest ih =>
    intro i j h hh
    cases j with
    | zero =>
      simp at hh
      subst hh
      simp [customDataRowAux]
    | succ j' =>
      simp only [List.getElem?_cons_succ] at hh
      unfold customDataRowAux
      simp only [List.getElem?_cons_succ]
      rw [ih (i + 1) j' h hh]
      congr 2
      omega

theorem customDataRows_length (rows : List Row) (hs : List String) (cm : PyDict) :
    ∀ k, (customDataRows rows hs cm k).length = rows.length := by
  induction rows with
  | nil => intro k; rfl
  | cons r rest ih =>
    intro k
    unfold customDataRows
    simp [ih]

theorem customDataRows_getElem? (rows : List Row) (hs : List String) (cm : PyDict) :
    ∀ (k ridx : ℕ) (r : Row), rows[ridx]? = some r →
      (customDataRows rows hs cm k)[ridx]? = some (customDataRowAux hs r (k + ridx) cm 0) := by
  induction rows with
  | nil => intro k ridx r hr; simp at hr
  | cons r0 rest ih =>
    intro k ridx r hr
    cases ridx with
    | zero =>
      simp at hr
      subst hr
      simp [customDataRows]
    | succ ridx' =>
      simp only [List.getElem?_cons_succ] at hr
      unfold customDataRows
      simp only [List.getElem?_cons_succ]
      have he : k + (ridx' + 1) = (k + 1) + ridx' := by omega
      rw [he]
      exact ih (k + 1) ridx' r hr

theorem create_single_table_data_row (ths : List String) (rows : List Row) (cm : PyDict)
    (hc : String) (ch : List String) (ht sp : Bool) (ridx : ℕ) (r : Row)
    (hr : rows[ridx]? = some r) :
    (create_single_table ths rows cm hc ch ht sp).rows[ridx + 1]?
      = some (customDataRowAux ths r ridx cm 0) := by
  unfold create_single_table
  dsimp only
  rw [List.getElem?_cons_succ]
  have hlen : ridx < (customDataRows rows ths cm 0).length := by
    rw [customDataRows_length]
    exact (List.getElem?_eq_some.mp hr).1
  rw [List.getElem?_append_left hlen]
  have := customDataRows_getElem? rows ths cm 0 ridx r hr
  simpa using this

/-- C9: a data-row cell in a non-index column is filled from the input row's
static field exactly when its header is the literal `"Staff"` (or
`"Total"`, excluded here); under any other header the cell shows the
`value` of the row's month-map entry for that header, and the empty string
when the entry or its `value` field is absent. -/
theorem claim9_staff_dispatch (ths : List String) (rows : List Row) (cm : PyDict)
    (hc : String) (ch : List String) (ht sp : Bool) (ridx : ℕ) (r : Row) (j : ℕ)
    (h : String) (hr : rows[ridx]? = some r) (hh : ths[j]? = some h) (hj : 1 ≤ j)
    (hT : h ≠ "Total") :
    ((((create_single_table ths rows cm hc ch ht sp).rows[ridx + 1]?).bind
        (fun row => row[j]?)).map Cell.text)
      = some (if h = "Staff" then pyStr (pyGet r "Staff" (.str ""))
              else pyStr (pyGet (asDict (pyGet (monthMapOfRow r) h (.dict []))) "value"
                (.str "")))
    ∧ ((List.lookup h (monthMapOfRow r)).isSome = false → h ≠ "Staff" →
       ((((create_single_table ths rows cm hc ch ht sp).rows[ridx + 1]?).bind
           (fun row => row[j]?)).map Cell.text) = some "") := by
  have hcell : (((create_single_table ths rows cm hc ch ht sp).rows[ridx + 1]?).bind
      (fun row => row[j]?)) = some (customDataCell (0 + j) h r ridx cm) := by
    rw [create_single_table_data_row ths rows cm hc ch ht sp ridx r hr, Option.some_bind]
    exact customDataRowAux_getElem? ths r ridx cm 0 j h hh
  have hj0 : ¬(0 + j = 0) := by omega
  constructor
  · rw [hcell]
    unfold customDataCell
    rw [if_neg hj0]
    by_cases hS : h = "Staff"
    · rw [if_pos hS, if_pos hS]
      subst hS
      rfl
    · rw [if_neg hS, if_neg hS, if_neg hT]
      rfl
  · intro hmiss hS
    rw [hcell]
    unfold customDataCell
    rw [if_neg hj0, if_neg hS, if_neg hT]
    have hnone : List.lookup h (monthMapOfRow r) = Option.none := by
      rcases hl : List.lookup h (monthMapOfRow r) with _ | v
      · rfl
      · rw [hl] at hmiss; simp at hmiss
    simp only [Option.map_some']
    unfold pyGet
    rw [hnone]
    rfl

/-- C9 witness: under the `Staff` header the cell shows the row's `Staff`
field; under the series header `Jan` it shows the month entry's value. -/
theorem claim9_staff_dispatch_witness :
    ((((create_single_table ["S.No", "Staff", "Jan"]
        [[("Staff", PyVal.str "Alice"),
          ("months", PyVal.list [PyVal.dict [("Jan",
            PyVal.dict [("value", PyVal.str "5"), ("phase", PyVal.str "P1")])]])]]
        [] "#333399" ["Jan"] false false).rows[0 + 1]?).bind
        (fun row => row[1]?)).map Cell.text) = some "Alice" := by
  have h := (claim9_staff_dispatch ["S.No", "Staff", "Jan"]
    [[("Staff", PyVal.str "Alice"),
      ("months", PyVal.list [PyVal.dict [("Jan",
        PyVal.dict [("value", PyVal.str "5"), ("phase", PyVal.str "P1")])]])]]
    [] "#333399" ["Jan"] false false 0
    [("Staff", PyVal.str "Alice"),
      ("months", PyVal.list [PyVal.dict [("Jan",
        PyVal.dict [("value", PyVal.str "5"), ("phase", PyVal.str "P1")])]])]
    1 "Staff" rfl (by decide) (by omega) (by decide)).1
  exact h.trans (by decide)

/-! ## Claim C10: default header color and uniform header styling -/

theorem customHeaderRow_mem (hc : String) :
    ∀ (hs : List String) (i : ℕ) (c : Cell), c ∈ customHeaderRow hs hc i →
      c.shading = some (stripHash hc) ∧ c.bold = true ∧ c.size = HEADER_FONT_SIZE := by
  intro hs
  induction hs with
  | nil => intro i c hclm; simp [customHeaderRow] at hclm
  | cons h0 rest ih =>
    intro i c hclm
    unfold customHeaderRow at hclm
    rcases List.mem_cons.mp hclm with hc1 | hc1
    · subst hc1
      exact ⟨rfl, rfl, rfl⟩
    · exact ih (i + 1) c hc1

theorem plainHeaderRow_mem (hc : String) :
    ∀ (hs : List String) (i : ℕ) (c : Cell), c ∈ plainHeaderRow hs hc i →
      c.shading = some (stripHash hc) ∧ c.bold = true ∧ c.size = HEADER_FONT_SIZE := by
  intro hs
  induction hs with
  | nil => intro i c hclm; simp [plainHeaderRow] at hclm
  | cons h0 rest ih =>
    intro i c hclm
    unfold plainHeaderRow at hclm
    rcases List.mem_cons.mp hclm with hc1 | hc1
    · subst hc1
      exact ⟨rfl, rfl, rfl⟩
    · exact ih (i + 1) c hc1

/-- C10: when `headerColor` is absent the default `"#333399"` is used, and
in all three strategies every header-row cell is bold, in the header font
size, and shaded with the header color (stored by `set_cell_shading` with
the `'#'` stripped). -/
theorem claim10_header_styling :
    (∀ data : Payload, data.headerColor = Option.none → headerColorOf data = "#333399")
    ∧ (∀ (rows : List Row) (cm : PyDict) (hc : String) (c : Cell),
        c ∈ (generate_simple_table rows cm hc).rows.headD [] →
        c.shading = some (stripHash hc) ∧ c.bold = true ∧ c.size = HEADER_FONT_SIZE)
    ∧ (∀ (rows : List Row) (cm : PyDict) (hc : String) (c : Cell),
        c ∈ (generate_phase_based_table rows cm hc).rows.headD [] →
        c.shading = some (stripHash hc) ∧ c.bold = true ∧ c.size = HEADER_FONT_SIZE)
    ∧ (∀ (ths : List String) (rows : List Row) (cm : PyDict) (hc : String)
        (ch : List String) (ht sp : Bool) (c : Cell),
        c ∈ (create_single_table ths rows cm hc ch ht sp).rows.headD [] →
        c.shading = some (stripHash hc) ∧ c.bold = true ∧ c.size = HEADER_FONT_SIZE) := by
  refine ⟨?_, ?_, ?_, ?_⟩
  · intro data h
    unfold headerColorOf
    rw [h]
    rfl
  · intro rows cm hc c hclm
    cases rows with
    | nil => simp [generate_simple_table] at hclm
    | cons r0 rest =>
      unfold generate_simple_table at hclm
      simp only [List.headD_cons] at hclm
      exact plainHeaderRow_mem hc _ 0 c hclm
  · intro rows cm hc c hclm
    cases rows with
    | nil => simp [generate_phase_based_table] at hclm
    | cons r0 rest =>
      unfold generate_phase_based_table at hclm
      simp only [List.headD_cons] at hclm
      exact plainHeaderRow_mem hc _ 0 c hclm
  · intro ths rows cm hc ch ht sp c hclm
    unfold create_single_table at hclm
    simp only [List.headD_cons] at hclm
    exact customHeaderRow_mem hc ths 0 c hclm

/-- C10 witness: the default color on an empty `headerColor` field, and a
concrete custom-strategy header cell carrying the styling triple. -/
theorem claim10_header_styling_witness :
    headerColorOf ⟨[], [], [], [], Option.none⟩ = "#333399"
    ∧ ((customHeaderCell 0 "S.No" "#ABCDEF").shading = some (stripHash "#ABCDEF")
       ∧ (customHeaderCell 0 "S.No" "#ABCDEF").bold = true
       ∧ (customHeaderCell 0 "S.No" "#ABCDEF").size = HEADER_FONT_SIZE) :=
  ⟨claim10_header_styling.1 _ rfl,
   claim10_header_styling.2.2.2 ["S.No"] [] [] "#ABCDEF" [] false false _ (by decide)⟩

/-! ## Claims C2 and C3: chunking of wide custom tables -/

theorem customHeaderRow_texts (hc : String) :
    ∀ (hs : List String) (i : ℕ), (customHeaderRow hs hc i).map Cell.text = hs := by
  intro hs
  induction hs with
  | nil => intro i; rfl
  | cons h0 rest ih =>
    intro i
    unfold customHeaderRow
    simp only [List.map_cons, ih]
    rfl

theorem headersOf_create (ths : List String) (rows : List Row) (cm : PyDict)
    (hc : String) (ch : List String) (ht sp : Bool) :
    headersOf (create_single_table ths rows cm hc ch ht sp) = ths := by
  unfold create_single_table headersOf
  dsimp only
  rw [List.headD_cons]
  exact customHeaderRow_texts hc ths 0

theorem chunkLoop_ne_nil (st2 : List String) (rows : List Row) (cm : PyDict)
    (hc : String) (ht : Bool) (l : List String) (first : Bool) (hl : l ≠ []) :
    chunkLoop st2 rows cm hc ht l first ≠ [] := by
  rw [chunkLoop]
  rw [dif_neg hl]
  simp

theorem getLast?_cons_of_ne_nil {α : Type} (a : α) (l : List α) (hl : l ≠ []) :
    (a :: l).getLast? = l.getLast? := by
  cases l with
  | nil => exact absurd rfl hl
  | cons b rest => exact List.getLast?_cons_cons

theorem listContains_iff (l : List String) (a : String) : l.contains a = true ↔ a ∈ l := by
  simp [List.contains, List.elem_iff]

theorem listContains_false_iff (l : List String) (a : String) :
    l.contains a = false ↔ a ∉ l := by
  rw [← Bool.not_eq_true, not_iff_not]
  exact listContains_iff l a

theorem contains_false_of_sublist {l l' : List String} {a : String}
    (hsub : l' ⊆ l) (h : l.contains a = false) : l'.contains a = false := by
  rw [listContains_false_iff] at h ⊢
  exact fun hm => h (hsub hm)

theorem chunkLoop_count (st2 : List String) (rows : List Row) (cm : PyDict) (hc : String)
    (ht : Bool) (hst2 : st2.contains "Total" = false) :
    ∀ (N : ℕ) (l : List String) (first : Bool), l.length ≤ N →
      l.contains "Total" = false →
      (chunkLoop st2 rows cm hc ht l first).countP
          (fun t => (headersOf t).contains "Total")
        = if ht = true ∧ l ≠ [] ∧ ¬ l.length % MAX_DYNAMIC_COLS = 0 then 1 else 0 := by
  intro N
  induction N with
  | zero =>
    intro l first hlen _
    have hl : l = [] := List.length_eq_zero.mp (Nat.le_zero.mp hlen)
    subst hl
    rw [chunkLoop, dif_pos rfl]
    simp
  | succ N ih =>
    intro l first hlen hTot
    have hM : MAX_DYNAMIC_COLS = 16 := rfl
    by_cases hl : l = []
    · subst hl
      rw [chunkLoop, dif_pos rfl]
      simp
    · rw [chunkLoop, dif_neg hl]
      dsimp only
      rw [List.countP_cons]
      have hchunklen : (l.take MAX_DYNAMIC_COLS).length = min MAX_DYNAMIC_COLS l.length :=
        List.length_take _ _
      have hrestlen : (l.drop MAX_DYNAMIC_COLS).length = l.length - MAX_DYNAMIC_COLS :=
        List.length_drop _ _
      have hlpos : 0 < l.length := List.length_pos.mpr hl
      have hchunkTot : (l.take MAX_DYNAMIC_COLS).contains "Total" = false :=
        contains_false_of_sublist (List.take_subset _ _) hTot
      have hrestTot : (l.drop MAX_DYNAMIC_COLS).contains "Total" = false :=
        contains_false_of_sublist (List.drop_subset _ _) hTot
      simp only [hM] at hchunklen hrestlen hchunkTot hrestTot ih ⊢
      by_cases hcase : (ht && (l.drop 16).isEmpty && decide ((l.take 16).length < 16)) = true
      · rw [if_pos hcase]
        have hc1 := (Bool.and_eq_true _ _).mp hcase
        have hc2 := (Bool.and_eq_true _ _).mp hc1.1
        have hht : ht = true := hc2.1
        have hrestnil : l.drop 16 = [] := List.isEmpty_iff.mp hc2.2
        have hlt : (l.take 16).length < 16 := of_decide_eq_true hc1.2
        rw [hchunklen] at hlt
        have hlenlt : l.length < 16 := by
          have h0 := List.length_eq_zero.mpr hrestnil
          rw [hrestlen] at h0
          omega
        rw [headersOf_create]
        have hcontains : ((st2 ++ l.take 16 ++ ["Total"]).contains "Total") = true := by
          rw [listContains_iff]
          simp
        rw [hcontains, if_pos rfl]
        rw [hrestnil, chunkLoop, dif_pos rfl]
        rw [if_pos ⟨hht, hl, by omega⟩]
        rfl
      · rw [if_neg hcase]
        rw [headersOf_create]
        have hcontains : ((st2 ++ l.take 16).contains "Total") = false := by
          rw [listContains_false_iff]
          rw [listContains_false_iff] at hst2 hchunkTot
          intro hm
          rcases List.mem_append.mp hm with hm | hm
          · exact hst2 hm
          · exact hchunkTot hm
        rw [hcontains, if_neg (by simp), add_zero]
        have hrec := ih (l.drop 16) false (by rw [hrestlen]; omega) hrestTot
        rw [hrestlen] at hrec
        rw [hrec]
        by_cases hht : ht = true
        · subst hht
          have hnot : ¬((l.drop 16).isEmpty && decide ((l.take 16).length < 16)) = true := by
            intro hcontra
            exact hcase (by simp only [Bool.true_and]; exact hcontra)
          by_cases hbig : 16 < l.length
          · have hrestne : l.drop 16 ≠ [] := by
              intro he
              have h0 := List.length_eq_zero.mpr he
              rw [hrestlen] at h0
              omega
            have hmod : (l.length - 16) % 16 = l.length % 16 :=
              (Nat.mod_eq_sub_mod (by omega)).symm
            by_cases hz : l.length % 16 = 0
            · rw [if_neg (by rw [hmod]; tauto), if_neg (by tauto)]
            · rw [if_pos ⟨rfl, hrestne, by rw [hmod]; exact hz⟩, if_pos ⟨rfl, hl, hz⟩]
          · have hrestnil : l.drop 16 = [] := by
              apply List.length_eq_zero.mp
              rw [hrestlen]
              omega
            have hisEmpty : (l.drop 16).isEmpty = true := List.isEmpty_iff.mpr hrestnil
            have hfull : ¬ (l.take 16).length < 16 := by
              intro hcontra
              apply hnot
              rw [hisEmpty, Bool.true_and, decide_eq_true_iff]
              exact hcontra
            rw [hchunklen] at hfull
            have hexact : l.length = 16 := by omega
            rw [if_neg (by simp [hrestnil]), if_neg (by rw [hexact]; simp)]
        · have hhtf : ht = false := Bool.not_eq_true _ |>.mp hht
          rw [if_neg (by tauto), if_neg (by tauto)]

theorem chunkLoop_getLast (st2 : List String) (rows : List Row) (cm : PyDict) (hc : String) :
    ∀ (N : ℕ) (l : List String) (first : Bool), l.length ≤ N → l ≠ [] →
      ¬ l.length % MAX_DYNAMIC_COLS = 0 →
      ((chunkLoop st2 rows cm hc true l first).getLast?).map headersOf
        = some (st2 ++ l.drop (l.length - l.length % MAX_DYNAMIC_COLS) ++ ["Total"]) := by
  intro N
  induction N with
  | zero =>
    intro l first hlen hl _
    exact absurd (List.length_eq_zero.mp (Nat.le_zero.mp hlen)) hl
  | succ N ih =>
    intro l first hlen hl hz
    have hM : MAX_DYNAMIC_COLS = 16 := rfl
    simp only [hM] at hz ih
    rw [chunkLoop, dif_neg hl]
    dsimp only
    have hchunklen : (l.take MAX_DYNAMIC_COLS).length = min MAX_DYNAMIC_COLS l.length :=
      List.length_take _ _
    have hrestlen : (l.drop MAX_DYNAMIC_COLS).length = l.length - MAX_DYNAMIC_COLS :=
      List.length_drop _ _
    simp only [hM] at hchunklen hrestlen ⊢
    have hlpos : 0 < l.length := List.length_pos.mpr hl
    by_cases hbig : 16 < l.length
    · have hrestne : l.drop 16 ≠ [] := by
        intro he
        have h0 := List.length_eq_zero.mpr he
        rw [hrestlen] at h0
        omega
      have hcond : (true && (l.drop 16).isEmpty
          && decide ((l.take 16).length < 16)) = false := by
        have : (l.drop 16).isEmpty = false := by
          rw [← Bool.not_eq_true]
          intro hc0
          exact hrestne (List.isEmpty_iff.mp hc0)
        simp [this]
      rw [hcond]
      simp only [Bool.false_eq_true, if_false]
      have hmod : (l.length - 16) % 16 = l.length % 16 :=
        (Nat.mod_eq_sub_mod (by omega)).symm
      rw [getLast?_cons_of_ne_nil _ _ (chunkLoop_ne_nil st2 rows cm hc true _ false hrestne)]
      have hrec := ih (l.drop 16) false (by rw [hrestlen]; omega) hrestne
        (by rw [hrestlen, hmod]; exact hz)
      rw [hrec, hrestlen, hmod, List.drop_drop]
      have harith : 16 + (l.length - 16 - l.length % 16) = l.length - l.length % 16 := by
        have hm16 : l.length % 16 < 16 := Nat.mod_lt _ (by omega)
        omega
      rw [harith]
    · have hlt : l.length < 16 := by
        rcases Nat.lt_or_ge l.length 16 with h | h
        · exact h
        · have : l.length = 16 := by omega
          rw [this] at hz
          simp at hz
      have hrestnil : l.drop 16 = [] := by
        apply List.length_eq_zero.mp
        rw [hrestlen]
        omega
      have hcond : (true && (l.drop 16).isEmpty
          && decide ((l.take 16).length < 16)) = true := by
        rw [List.isEmpty_iff.mpr hrestnil]
        rw [hchunklen]
        simp
        omega
      rw [hcond]
      simp only [if_true]
      rw [hrestnil, chunkLoop, dif_pos rfl]
      simp only [List.getLast?_singleton, Option.map_some']
      rw [headersOf_create]
      have htake : l.take 16 = l := List.take_of_length_le (by omega)
      have hdrop : l.length - l.length % 16 = 0 := by
        rw [Nat.mod_eq_of_lt hlt]
        omega
      rw [htake, hdrop, List.drop_zero]

theorem chunkLoop_series (st2 : List String) (rows : List Row) (cm : PyDict) (hc : String)
    (ht : Bool) (months : List String)
    (hst2 : ∀ x ∈ st2, months.contains x = false)
    (hTotm : ht = true → months.contains "Total" = false) :
    ∀ (N : ℕ) (l : List String) (first : Bool), l.length ≤ N →
      (∀ x ∈ l, months.contains x = true) →
      (((chunkLoop st2 rows cm hc ht l first).map
          (fun t => seriesColsOf t months)).flatten = l
       ∧ ∀ t ∈ chunkLoop st2 rows cm hc ht l first,
           (seriesColsOf t months).length ≤ MAX_DYNAMIC_COLS) := by
  intro N
  induction N with
  | zero =>
    intro l first hlen _
    have hl : l = [] := List.length_eq_zero.mp (Nat.le_zero.mp hlen)
    subst hl
    rw [chunkLoop, dif_pos rfl]
    simp
  | succ N ih =>
    intro l first hlen hall
    by_cases hl : l = []
    · subst hl
      rw [chunkLoop, dif_pos rfl]
      simp
    · have hM : MAX_DYNAMIC_COLS = 16 := rfl
      rw [chunkLoop, dif_neg hl]
      dsimp only
      have hchunklen : (l.take MAX_DYNAMIC_COLS).length = min MAX_DYNAMIC_COLS l.length :=
        List.length_take _ _
      have hrestlen : (l.drop MAX_DYNAMIC_COLS).length = l.length - MAX_DYNAMIC_COLS :=
        List.length_drop _ _
      have hlpos : 0 < l.length := List.length_pos.mpr hl
      simp only [hM] at hchunklen hrestlen ih ⊢
      have hfchunk : (l.take 16).filter (fun h => months.contains h) = l.take 16 :=
        List.filter_eq_self.mpr (fun x hx => hall x (List.take_subset _ _ hx))
      have hfst2 : st2.filter (fun h => months.contains h) = [] := by
        rw [List.filter_eq_nil_iff]
        intro x hx
        rw [hst2 x hx]
        exact Bool.false_ne_true
      have hrec := ih (l.drop 16) false (by rw [hrestlen]; omega)
        (fun x hx => hall x (List.drop_subset _ _ hx))
      have hchunkbound : (l.take 16).length ≤ 16 := by
        rw [hchunklen]
        omega
      by_cases hcase : (ht && (l.drop 16).isEmpty && decide ((l.take 16).length < 16)) = true
      · rw [if_pos hcase]
        have hc1 := (Bool.and_eq_true _ _).mp hcase
        have hc2 := (Bool.and_eq_true _ _).mp hc1.1
        have hht : ht = true := hc2.1
        have hrestnil : l.drop 16 = [] := List.isEmpty_iff.mp hc2.2
        have hfT : (["Total"] : List String).filter (fun h => months.contains h) = [] := by
          rw [List.filter_eq_nil_iff]
          intro x hx
          simp at hx
          subst hx
          rw [hTotm hht]
          exact Bool.false_ne_true
        have hser : seriesColsOf (create_single_table (st2 ++ l.take 16 ++ ["Total"]) rows
            cm hc (l.take 16) true (!first)) months = l.take 16 := by
          unfold seriesColsOf
          rw [headersOf_create, List.filter_append, List.filter_append, hfst2, hfchunk, hfT]
          simp
        constructor
        · rw [hrestnil, chunkLoop, dif_pos rfl]
          simp only [List.map_cons, List.map_nil, List.flatten_cons, List.flatten_nil,
            List.append_nil]
          rw [hser]
          have : l.take 16 = l := List.take_of_length_le (by
            have h0 := List.length_eq_zero.mpr hrestnil
            rw [hrestlen] at h0
            omega)
          exact this
        · intro t htmem
          rw [hrestnil, chunkLoop, dif_pos rfl] at htmem
          have ht' := List.mem_singleton.mp htmem
          rw [ht', hser]
          exact hchunkbound
      · rw [if_neg hcase]
        have hser : seriesColsOf (create_single_table (st2 ++ l.take 16) rows
            cm hc (l.take 16) false (!first)) months = l.take 16 := by
          unfold seriesColsOf
          rw [headersOf_create, List.filter_append, hfst2, hfchunk]
          simp
        constructor
        · simp only [List.map_cons, List.flatten_cons]
          rw [hser, hrec.1]
          exact List.take_append_drop 16 l
        · intro t htmem
          rcases List.mem_cons.mp htmem with htmem | htmem
          · subst htmem
            rw [hser]
            exact hchunkbound
          · exact hrec.2 t htmem

theorem mem_staticHeaders {headers : List String} {rows : List Row} {x : String}
    (hx : x ∈ staticHeadersOf headers rows) :
    x ∈ headers ∧ (monthHeadersOf rows).contains x = false := by
  unfold staticHeadersOf at hx
  have h := List.mem_filter.mp hx
  refine ⟨h.1, ?_⟩
  have hb := h.2
  simpa using hb

/-- C2 (as amended): with the aggregate flag set (`"Total"` among the static
headers) and a well-formed static prefix (the first two static headers are
not `"Total"`), the `"Total"` header appears in exactly one generated table.
When the series count exceeds 16, it is appended to the final chunk if that
chunk has fewer than 16 series columns and otherwise carried by one
dedicated trailing table of the two static headers plus `"Total"`; when the
series count is at most 16 (including exactly 16) the single table keeps the
supplied headers, `"Total"` wherever the caller placed it. -/
theorem claim2_total_placement (headers : List String) (rows : List Row) (cm : PyDict)
    (hc : String) (lg : List PyDict)
    (hrows : rows ≠ [])
    (hflag : (staticHeadersOf headers rows).contains "Total" = true)
    (h2 : ((staticHeadersOf headers rows).take 2).contains "Total" = false) :
    ((generate_custom_table headers rows cm hc lg).countP
        (fun t => (headersOf t).contains "Total")) = 1
    ∧ (MAX_DYNAMIC_COLS < (monthHeadersOf rows).length →
        (¬ (monthHeadersOf rows).length % MAX_DYNAMIC_COLS = 0 →
          ((generate_custom_table headers rows cm hc lg).getLast?).map headersOf
            = some ((staticHeadersOf headers rows).take 2
                ++ (monthHeadersOf rows).drop
                    ((monthHeadersOf rows).length
                      - (monthHeadersOf rows).length % MAX_DYNAMIC_COLS)
                ++ ["Total"]))
        ∧ ((monthHeadersOf rows).length % MAX_DYNAMIC_COLS = 0 →
          ((generate_custom_table headers rows cm hc lg).getLast?).map headersOf
            = some ((staticHeadersOf headers rows).take 2 ++ ["Total"])))
    ∧ (¬ MAX_DYNAMIC_COLS < (monthHeadersOf rows).length →
        (generate_custom_table headers rows cm hc lg).map headersOf = [headers]) := by
  have hTotHeaders : "Total" ∈ headers ∧ (monthHeadersOf rows).contains "Total" = false :=
    mem_staticHeaders ((listContains_iff _ _).mp hflag)
  rcases rows with _ | ⟨r0, rest⟩
  · exact absurd rfl hrows
  unfold generate_custom_table
  dsimp only
  rw [hflag]
  by_cases hbig : MAX_DYNAMIC_COLS < (monthHeadersOf (r0 :: rest)).length
  · rw [if_pos hbig]
    have hmne : monthHeadersOf (r0 :: rest) ≠ [] := by
      intro he
      rw [he] at hbig
      simp [MAX_DYNAMIC_COLS] at hbig
    have hcount := chunkLoop_count ((staticHeadersOf headers (r0 :: rest)).take 2) (r0 :: rest)
      cm hc true h2 (monthHeadersOf (r0 :: rest)).length (monthHeadersOf (r0 :: rest)) true
      le_rfl hTotHeaders.2
    by_cases hz : (monthHeadersOf (r0 :: rest)).length % MAX_DYNAMIC_COLS = 0
    · rw [if_pos (by rw [hz]; simp)]
      refine ⟨?_, fun _ => ⟨fun hz' => absurd hz hz', fun _ => ?_⟩, fun hcontra => absurd hbig hcontra⟩
      · rw [List.countP_append, hcount,
          if_neg (by intro hcontra; exact hcontra.2.2 hz)]
        simp only [List.countP_cons, List.countP_nil, headersOf_create]
        rw [(listContains_iff _ _).mpr (by simp)]
        rfl
      · rw [List.getLast?_concat]
        simp only [Option.map_some']
        rw [headersOf_create]
    · rw [if_neg (by simp [hz])]
      refine ⟨?_, fun _ => ⟨fun _ => ?_, fun hz' => absurd hz' hz⟩, fun hcontra => absurd hbig hcontra⟩
      · rw [hcount, if_pos ⟨rfl, hmne, hz⟩]
      · exact chunkLoop_getLast _ (r0 :: rest) cm hc (monthHeadersOf (r0 :: rest)).length
          (monthHeadersOf (r0 :: rest)) true le_rfl hmne hz
  · rw [if_neg hbig]
    refine ⟨?_, fun hcontra => absurd hcontra hbig, fun _ => ?_⟩
    · simp only [List.countP_cons, List.countP_nil, headersOf_create]
      rw [(listContains_iff _ _).mpr hTotHeaders.1]
      rfl
    · simp only [List.map_cons, List.map_nil, headersOf_create]

/-- C2 counterexample to the claim as stated: exactly 16 series columns with
the aggregate flag set.  The claim's placement rule says the final chunk has
16 (not fewer) series columns, so `"Total"` should be emitted as one
additional dedicated table of the two static headers plus `"Total"`; the
source instead emits a single table with the supplied 19 headers and no
dedicated table. -/
theorem claim2_total_placement_counterexample :
    (generate_custom_table c2ex_headers c2ex_rows [] "#333399" []).map headersOf
      = [c2ex_headers]
    ∧ (monthHeadersOf c2ex_rows).length = MAX_DYNAMIC_COLS
    ∧ (staticHeadersOf c2ex_headers c2ex_rows).contains "Total" = true
    ∧ ¬ ∃ t ∈ generate_custom_table c2ex_headers c2ex_rows [] "#333399" [],
        headersOf t = ["S.No", "Staff", "Total"] := by
  decide

/-- C2 witness: 17 series columns with the aggregate flag set — exactly one
generated table carries the `"Total"` header. -/
theorem claim2_total_placement_witness :
    ((generate_custom_table c2wit_headers c2wit_rows [] "#333399" []).countP
        (fun t => (headersOf t).contains "Total")) = 1 :=
  (claim2_total_placement c2wit_headers c2wit_rows [] "#333399" []
    (List.cons_ne_nil _ _) (by decide) (by decide)).1

/-- C3 (as amended): provided the supplied headers contain, in order,
exactly the series names derived from the first row (as the data model
requires), the series columns of the generated tables, concatenated in
chunk order, reconstruct the original ordered series list, and every table
shows at most 16 series columns.  When the series count exceeds 16 this
holds without the proviso. -/
theorem claim3_chunk_coverage (headers : List String) (rows : List Row) (cm : PyDict)
    (hc : String) (lg : List PyDict)
    (hrows : rows ≠ [])
    (hcover : headers.filter (fun h => (monthHeadersOf rows).contains h)
        = monthHeadersOf rows) :
    (((generate_custom_table headers rows cm hc lg).map
        (fun t => seriesColsOf t (monthHeadersOf rows))).flatten = monthHeadersOf rows)
    ∧ (∀ t ∈ generate_custom_table headers rows cm hc lg,
        (seriesColsOf t (monthHeadersOf rows)).length ≤ MAX_DYNAMIC_COLS) := by
  rcases rows with _ | ⟨r0, rest⟩
  · exact absurd rfl hrows
  have hall : ∀ x ∈ monthHeadersOf (r0 :: rest),
      (monthHeadersOf (r0 :: rest)).contains x = true :=
    fun x hx => (listContains_iff _ _).mpr hx
  have hst2 : ∀ x ∈ (staticHeadersOf headers (r0 :: rest)).take 2,
      (monthHeadersOf (r0 :: rest)).contains x = false :=
    fun x hx => (mem_staticHeaders (List.take_subset _ _ hx)).2
  unfold generate_custom_table
  dsimp only
  by_cases hbig : MAX_DYNAMIC_COLS < (monthHeadersOf (r0 :: rest)).length
  · rw [if_pos hbig]
    have hTotm : (staticHeadersOf headers (r0 :: rest)).contains "Total" = true →
        (monthHeadersOf (r0 :: rest)).contains "Total" = false :=
      fun hf => (mem_staticHeaders ((listContains_iff _ _).mp hf)).2
    have hser := chunkLoop_series ((staticHeadersOf headers (r0 :: rest)).take 2)
      (r0 :: rest) cm hc ((staticHeadersOf headers (r0 :: rest)).contains "Total")
      (monthHeadersOf (r0 :: rest)) hst2 hTotm
      (monthHeadersOf (r0 :: rest)).length (monthHeadersOf (r0 :: rest)) true le_rfl hall
    by_cases hded : ((staticHeadersOf headers (r0 :: rest)).contains "Total"
        && ((monthHeadersOf (r0 :: rest)).length % MAX_DYNAMIC_COLS == 0)) = true
    · rw [if_pos hded]
      have hflagT : (staticHeadersOf headers (r0 :: rest)).contains "Total" = true :=
        ((Bool.and_eq_true _ _).mp hded).1
      have hdedser : seriesColsOf (create_single_table
          ((staticHeadersOf headers (r0 :: rest)).take 2 ++ ["Total"]) (r0 :: rest) cm hc
          [] true true) (monthHeadersOf (r0 :: rest)) = [] := by
        unfold seriesColsOf
        rw [headersOf_create, List.filter_append]
        rw [List.filter_eq_nil_iff.mpr (fun x hx => by
          rw [hst2 x hx]; exact Bool.false_ne_true)]
        rw [List.filter_eq_nil_iff.mpr (fun x hx => by
          rw [List.mem_singleton.mp hx, hTotm hflagT]; exact Bool.false_ne_true)]
        rfl
      constructor
      · rw [List.map_append, List.flatten_append]
        simp only [List.map_cons, List.map_nil, List.flatten_cons, List.flatten_nil]
        rw [hdedser, hser.1]
        simp
      · intro t htmem
        rcases List.mem_append.mp htmem with hm | hm
        · exact hser.2 t hm
        · rw [List.mem_singleton.mp hm, hdedser]
          simp [MAX_DYNAMIC_COLS]
    · rw [if_neg hded]
      exact hser
  · rw [if_neg hbig]
    have hone : seriesColsOf (create_single_table headers (r0 :: rest) cm hc
        (monthHeadersOf (r0 :: rest))
        ((staticHeadersOf headers (r0 :: rest)).contains "Total") false)
        (monthHeadersOf (r0 :: rest)) = monthHeadersOf (r0 :: rest) := by
      unfold seriesColsOf
      rw [headersOf_create]
      exact hcover
    constructor
    · simp only [List.map_cons, List.map_nil, List.flatten_cons, List.flatten_nil,
        List.append_nil]
      exact hone
    · intro t htmem
      rw [List.mem_singleton.mp htmem, hone]
      omega

/-- C3 counterexample to the claim as stated: the first row defines the
series list `["Jan"]`, but the caller's headers omit the series name, so the
single generated table shows no series column at all — the concatenation of
series columns is `[]`, not the original series list. -/
theorem claim3_chunk_coverage_counterexample :
    ((generate_custom_table ["S.No", "Staff"] c3ex_rows [] "#333399" []).map
        (fun t => seriesColsOf t (monthHeadersOf c3ex_rows))).flatten = []
    ∧ monthHeadersOf c3ex_rows = ["Jan"]
    ∧ (([] : List String) = ["Jan"] → False) := by
  decide

/-- C3 witness: headers covering the single series `Jan`; the series
columns of the generated tables concatenate to `["Jan"]`. -/
theorem claim3_chunk_coverage_witness :
    ((generate_custom_table ["S.No", "Staff", "Jan"] c3ex_rows [] "#333399" []).map
        (fun t => seriesColsOf t (monthHeadersOf c3ex_rows))).flatten
      = monthHeadersOf c3ex_rows :=
  (claim3_chunk_coverage ["S.No", "Staff", "Jan"] c3ex_rows [] "#333399" []
    (List.cons_ne_nil _ _) (by decide)).1

end PyDocx
